import Mathlib

/-!
Shallow embedding of drivers/usb/gadget/function/f_uac2.c (USB Audio Class 2.0
gadget function) and proofs about its pacing engine, transfer-ring completion
path, alt-setting state machine and clock control-request handlers.

Machine integers: all the quantities involved (sample rates up to 48000,
packet sizes up to 1024, residues bounded by framesize * interval <= 8000)
stay far below 2^32, so the C `unsigned int` / `size_t` arithmetic is embedded
as plain `Nat`; the only subtraction the code performs
(`p_residue -= p_framesize * p_interval`) is taken exactly on the branch where
the C code has already established `p_residue / p_interval >= p_framesize`,
i.e. `p_residue >= p_framesize * p_interval`, so `Nat` truncated subtraction
agrees with the C unsigned subtraction there.
-/

set_option autoImplicit false

namespace FUac2

/-! ### Constants from f_uac2.c and the UAC2 headers -/

/-- Line 43: number of in-flight USB requests per direction. -/
def USB_XFERS : Nat := 8

/-- Line 61: clock entity id for the capture (USB OUT) direction. -/
def USB_OUT_CLK_ID : Nat := 9

/-- Line 62: clock entity id for the playback (USB IN) direction. -/
def USB_IN_CLK_ID : Nat := 10

/-- Line 65: the fixed supported-rate table `clk_frequencies`. -/
def clk_frequencies : List Nat := [44100, 48000]

/-- Line 66: size of `clk_frequencies`. -/
def CLK_FREQ_ARR_SIZE : Nat := 2

/-- Line 947: number of non-zero alt settings of the streaming OUT interface. -/
def MAX_AS_OUT_ALT : Nat := 6

/-- Line 1082: number of non-zero alt settings of the streaming IN interface. -/
def MAX_AS_IN_ALT : Nat := 6

/-- Kernel errno EINVAL (returned negated by the driver). -/
def EINVAL : Int := 22

/-- Kernel errno EOPNOTSUPP (returned negated by the driver). -/
def EOPNOTSUPP : Int := 95

/-- Kernel errno ESHUTDOWN (seen negated in `req->status`). -/
def ESHUTDOWN : Int := 108

/-- Control selector UAC2_CS_CONTROL_SAM_FREQ (include/linux/usb/audio-v2.h). -/
def UAC2_CS_CONTROL_SAM_FREQ : Nat := 1

/-- Control selector UAC2_CS_CONTROL_CLOCK_VALID (include/linux/usb/audio-v2.h). -/
def UAC2_CS_CONTROL_CLOCK_VALID : Nat := 2

/-- Class-specific request code UAC2_CS_CUR (include/linux/usb/audio-v2.h). -/
def UAC2_CS_CUR : Nat := 1

/-- Class-specific request code UAC2_CS_RANGE (include/linux/usb/audio-v2.h). -/
def UAC2_CS_RANGE : Nat := 2

/-- Lines 193-204, `num_channels`: population count of the channel mask,
written in the source as a while loop that adds `chanmask & 1` and shifts
right until the mask is zero.  The loop is embedded with an explicit fuel
argument equal to the initial mask, which bounds the number of iterations
(the mask at least halves each round), so the function is structurally
recursive and computable by `decide`. -/
def num_channels_loop : Nat → Nat → Nat
  | 0, _ => 0
  | _, 0 => 0
  | fuel + 1, m => m % 2 + num_channels_loop fuel (m / 2)

/-- Lines 193-204: `num_channels(chanmask)`. -/
def num_channels (chanmask : Nat) : Nat := num_channels_loop chanmask chanmask

/-! ### Pacing state (playback direction of `struct snd_uac2_chip`) -/

/-- Lines 123-130 of `struct snd_uac2_chip`: the playback pacing fields. -/
structure SndUac2Chip where
  p_interval : Nat
  p_residue : Nat
  p_pktsize : Nat
  p_pktsize_residue : Nat
  p_framesize : Nat
deriving Repr, DecidableEq

/-- Lines 246-260: the playback branch of `agdev_iso_complete`.  One pacing
tick: `req->length = p_pktsize; p_residue += p_pktsize_residue;` then if
`p_residue / p_interval >= p_framesize` the packet grows by one frame and the
accumulator drops by `p_framesize * p_interval`.  Returns the new chip state
and the packet length written into `req->length` (= `req->actual`). -/
def pacingTick (u : SndUac2Chip) : SndUac2Chip × Nat :=
  let len := u.p_pktsize
  let res := u.p_residue + u.p_pktsize_residue
  if u.p_framesize ≤ res / u.p_interval then
    ({ u with p_residue := res - u.p_framesize * u.p_interval }, len + u.p_framesize)
  else
    ({ u with p_residue := res }, len)

/-- `pacingIterate n u` is the chip state after `n` pacing ticks from `u`. -/
def pacingIterate : Nat → SndUac2Chip → SndUac2Chip
  | 0, u => u
  | n + 1, u => (pacingTick (pacingIterate n u)).1

theorem pacingTick_p_interval (u : SndUac2Chip) :
    (pacingTick u).1.p_interval = u.p_interval := by
  dsimp only [pacingTick]; split <;> rfl

theorem pacingTick_p_pktsize (u : SndUac2Chip) :
    (pacingTick u).1.p_pktsize = u.p_pktsize := by
  dsimp only [pacingTick]; split <;> rfl

theorem pacingTick_p_pktsize_residue (u : SndUac2Chip) :
    (pacingTick u).1.p_pktsize_residue = u.p_pktsize_residue := by
  dsimp only [pacingTick]; split <;> rfl

theorem pacingTick_p_framesize (u : SndUac2Chip) :
    (pacingTick u).1.p_framesize = u.p_framesize := by
  dsimp only [pacingTick]; split <;> rfl

theorem pacingIterate_p_interval (n : Nat) (u : SndUac2Chip) :
    (pacingIterate n u).p_interval = u.p_interval := by
  induction n with
  | zero => rfl
  | succ n ih => rw [pacingIterate, pacingTick_p_interval, ih]

theorem pacingIterate_p_pktsize (n : Nat) (u : SndUac2Chip) :
    (pacingIterate n u).p_pktsize = u.p_pktsize := by
  induction n with
  | zero => rfl
  | succ n ih => rw [pacingIterate, pacingTick_p_pktsize, ih]

theorem pacingIterate_p_pktsize_residue (n : Nat) (u : SndUac2Chip) :
    (pacingIterate n u).p_pktsize_residue = u.p_pktsize_residue := by
  induction n with
  | zero => rfl
  | succ n ih => rw [pacingIterate, pacingTick_p_pktsize_residue, ih]

theorem pacingIterate_p_framesize (n : Nat) (u : SndUac2Chip) :
    (pacingIterate n u).p_framesize = u.p_framesize := by
  induction n with
  | zero => rfl
  | succ n ih => rw [pacingIterate, pacingTick_p_framesize, ih]

/-- One pacing tick preserves the bound
`p_residue < p_framesize * p_interval`, provided the per-tick increment is
below one interval and there is at least one frame per packet. -/
theorem pacingTick_residue_bound (u : SndUac2Chip)
    (hfs : 1 ≤ u.p_framesize) (hiv : 0 < u.p_interval)
    (hinc : u.p_pktsize_residue < u.p_interval)
    (hres : u.p_residue < u.p_framesize * u.p_interval) :
    (pacingTick u).1.p_residue < u.p_framesize * u.p_interval := by
  unfold pacingTick
  by_cases h : u.p_framesize ≤ (u.p_residue + u.p_pktsize_residue) / u.p_interval
  · rw [if_pos h]
    have hge : u.p_framesize * u.p_interval ≤ u.p_residue + u.p_pktsize_residue :=
      (Nat.le_div_iff_mul_le hiv).mp h
    have : u.p_residue + u.p_pktsize_residue - u.p_framesize * u.p_interval
        < u.p_interval := by omega
    have hone : u.p_interval ≤ u.p_framesize * u.p_interval :=
      Nat.le_mul_of_pos_left u.p_interval hfs
    simpa using lt_of_lt_of_le this hone
  · rw [if_neg h]
    have : (u.p_residue + u.p_pktsize_residue) / u.p_interval < u.p_framesize :=
      Nat.lt_of_not_le h
    have := (Nat.div_lt_iff_lt_mul hiv).mp this
    simpa using this

/-- Residue bound propagated through any number of pacing ticks. -/
theorem pacingIterate_residue_bound (u : SndUac2Chip)
    (hfs : 1 ≤ u.p_framesize) (hiv : 0 < u.p_interval)
    (hinc : u.p_pktsize_residue < u.p_interval)
    (hres : u.p_residue < u.p_framesize * u.p_interval) :
    ∀ n, (pacingIterate n u).p_residue < u.p_framesize * u.p_interval := by
  intro n
  induction n with
  | zero => exact hres
  | succ n ih =>
      have h1 := pacingTick_residue_bound (pacingIterate n u)
      rw [pacingIterate_p_framesize, pacingIterate_p_interval,
        pacingIterate_p_pktsize_residue] at h1
      exact h1 hfs hiv hinc ih

/-- Claim C10: starting from an activation state (`p_residue = 0`) with
`p_framesize >= 1` and `p_pktsize_residue < p_interval`, after every playback
pacing tick `p_residue` stays strictly below `p_framesize * p_interval`, and
every emitted packet length is exactly `p_pktsize` or exactly
`p_pktsize + p_framesize`. -/
theorem pacing_residue_invariant_and_packet_sizes (u : SndUac2Chip)
    (hfs : 1 ≤ u.p_framesize) (hiv : 0 < u.p_interval)
    (hinc : u.p_pktsize_residue < u.p_interval)
    (h0 : u.p_residue = 0) :
    ∀ n, (pacingIterate n u).p_residue < u.p_framesize * u.p_interval ∧
      ((pacingTick (pacingIterate n u)).2 = u.p_pktsize ∨
       (pacingTick (pacingIterate n u)).2 = u.p_pktsize + u.p_framesize) := by
  intro n
  have hres : u.p_residue < u.p_framesize * u.p_interval := by
    rw [h0]; exact Nat.mul_pos (Nat.lt_of_lt_of_le Nat.zero_lt_one hfs) hiv
  refine ⟨pacingIterate_residue_bound u hfs hiv hinc hres n, ?_⟩
  unfold pacingTick
  by_cases h : (pacingIterate n u).p_framesize ≤
      ((pacingIterate n u).p_residue + (pacingIterate n u).p_pktsize_residue) /
        (pacingIterate n u).p_interval
  · rw [if_pos h]
    right
    simp [pacingIterate_p_pktsize, pacingIterate_p_framesize]
  · rw [if_neg h]
    left
    simp [pacingIterate_p_pktsize]

/-- Witness for C10 at the 44100 Hz full-speed configuration
(interval 1000 us, packet base 176, residue increment 400, frame 4 bytes). -/
theorem pacing_residue_invariant_witness :
    (1 ≤ (SndUac2Chip.mk 1000 0 176 400 4).p_framesize ∧
     0 < (SndUac2Chip.mk 1000 0 176 400 4).p_interval ∧
     (SndUac2Chip.mk 1000 0 176 400 4).p_pktsize_residue
       < (SndUac2Chip.mk 1000 0 176 400 4).p_interval ∧
     (SndUac2Chip.mk 1000 0 176 400 4).p_residue = 0) ∧
    ((pacingIterate 7 (SndUac2Chip.mk 1000 0 176 400 4)).p_residue
        < (SndUac2Chip.mk 1000 0 176 400 4).p_framesize *
          (SndUac2Chip.mk 1000 0 176 400 4).p_interval ∧
      ((pacingTick (pacingIterate 7 (SndUac2Chip.mk 1000 0 176 400 4))).2
          = (SndUac2Chip.mk 1000 0 176 400 4).p_pktsize ∨
       (pacingTick (pacingIterate 7 (SndUac2Chip.mk 1000 0 176 400 4))).2
          = (SndUac2Chip.mk 1000 0 176 400 4).p_pktsize +
            (SndUac2Chip.mk 1000 0 176 400 4).p_framesize)) :=
  ⟨⟨by decide, by decide, by decide, by decide⟩,
    pacing_residue_invariant_and_packet_sizes (SndUac2Chip.mk 1000 0 176 400 4)
      (by decide) (by decide) (by decide) (by decide) 7⟩

/-! ### Alt-setting state machine (`afunc_set_alt`, lines 1728-1878) -/

/-- Fields of an alt-setting format table entry that `afunc_set_alt` reads:
`bSubslotSize` and `bBitResolution` from the type-I format descriptor and
`bmChannelConfig` from the AS header descriptor. -/
structure AltFmt where
  ssize : Nat
  chmask : Nat
  sres : Nat
deriving Repr, DecidableEq

/-- Lines 1069-1104, `as_in_alt_setting`: the six non-zero alt settings of the
streaming IN interface, instantiated by `INIT_USB_IN_ALT_SETTING` as
(MONO, STEREO) x (16-bit-in-2, 24-bit-in-3, 24-bit-in-4); MONO channel config
is 0x01 and STEREO is 0x03 (lines 39-40).  Indices outside 1..6 are never read
by `afunc_set_alt` (the table access is guarded by `alt != 0` and
`alt <= MAX_AS_IN_ALT`). -/
def as_in_alt_setting : Nat → AltFmt
  | 1 => ⟨2, 1, 16⟩
  | 2 => ⟨2, 3, 16⟩
  | 3 => ⟨3, 1, 24⟩
  | 4 => ⟨3, 3, 24⟩
  | 5 => ⟨4, 1, 24⟩
  | 6 => ⟨4, 3, 24⟩
  | _ => ⟨0, 0, 0⟩

/-- Lines 934-969, `as_out_alt_setting`: same format table for the streaming
OUT interface (lines 934-945 instantiate the same six variants). -/
def as_out_alt_setting : Nat → AltFmt
  | 1 => ⟨2, 1, 16⟩
  | 2 => ⟨2, 3, 16⟩
  | 3 => ⟨3, 1, 24⟩
  | 4 => ⟨3, 3, 24⟩
  | 5 => ⟨4, 1, 24⟩
  | 6 => ⟨4, 3, 24⟩
  | _ => ⟨0, 0, 0⟩

/-- The fields of `struct f_uac2_opts` that the handlers read and write
(sample size, channel mask, resolution and sample rate per direction). -/
structure Uac2Opts where
  p_ssize : Nat
  p_chmask : Nat
  p_sres : Nat
  p_srate : Nat
  c_ssize : Nat
  c_chmask : Nat
  c_sres : Nat
  c_srate : Nat
deriving Repr, DecidableEq

/-- Gadget speed as tested at line 1795 (`gadget->speed == USB_SPEED_FULL`);
everything else takes the high-speed branch. -/
inductive Speed where
  | full
  | high
deriving Repr, DecidableEq

/-- The state of `struct audio_dev` that `afunc_set_alt` touches: the three
interface numbers and current alts, the configured options, the playback
pacing fields, the per-direction endpoint-enabled flags, and the maximum
packet sizes fixed at bind time (lines 1604 and 1612: both are
`wMaxPacketSize` of the endpoint descriptor, 1023 after line 1596 copies the
full-speed value over the high-speed one).  `speed` is the gadget speed. -/
structure AudioDev where
  ac_intf : Nat
  ac_alt : Nat
  as_out_intf : Nat
  as_out_alt : Nat
  as_in_intf : Nat
  as_in_alt : Nat
  opts : Uac2Opts
  uac2 : SndUac2Chip
  p_ep_enabled : Bool
  c_ep_enabled : Bool
  p_max_psize : Nat
  c_max_psize : Nat
  speed : Speed
deriving Repr, DecidableEq

/-- Lines 1728-1878, `afunc_set_alt(fn, intf, alt)`.  Returns the C return
value and the updated device state.

* Control interface (lines 1744-1751): only alt 0 is valid; non-zero alt is
  `-EINVAL`, alt 0 returns 0 with no state change.
* Streaming OUT interface with `alt <= MAX_AS_OUT_ALT` (lines 1754-1784):
  store the alt, for non-zero alt copy `bSubslotSize` / `bmChannelConfig` /
  `bBitResolution` of table entry `alt-1` into the capture options; alt 0
  calls `free_ep` (line 1850), non-zero alt enables the endpoint
  (lines 1854-1855).
* Streaming IN interface with `alt <= MAX_AS_IN_ALT` (lines 1785-1843): same
  option update for the playback direction, then - for every alt, including 0
  - recompute the pacing fields (lines 1829-1843): `p_framesize` from subslot
  size times channel count, `p_interval` from the endpoint descriptor's
  `bInterval` and the speed factor, `p_pktsize = min(rate/interval,
  max_psize)`, `p_pktsize_residue = rate % interval` when `p_pktsize <
  max_psize` and 0 otherwise, and `p_residue = 0`.
* Anything else (lines 1844-1847): `-EINVAL`, no state change.

The external effects (endpoint configuration, uevent scheduling, ALSA stop,
request allocation and queueing) are not part of the modelled state;
allocation is treated as succeeding, so the `-ENOMEM` path at line 1861 does
not appear. -/
def afunc_set_alt (d : AudioDev) (intf alt : Nat) : Int × AudioDev :=
  if intf = d.ac_intf then
    if alt ≠ 0 then (-EINVAL, d) else (0, d)
  else if intf = d.as_out_intf ∧ alt ≤ MAX_AS_OUT_ALT then
    let d1 := { d with as_out_alt := alt }
    let d2 :=
      if alt ≠ 0 then
        let fmt := as_out_alt_setting alt
        { d1 with opts := { d1.opts with
            c_ssize := fmt.ssize, c_chmask := fmt.chmask, c_sres := fmt.sres } }
      else d1
    if alt = 0 then (0, { d2 with c_ep_enabled := false })
    else (0, { d2 with c_ep_enabled := true })
  else if intf = d.as_in_intf ∧ alt ≤ MAX_AS_IN_ALT then
    let factor : Nat := if d.speed = Speed.full then 1000 else 125
    let bInterval : Nat := if d.speed = Speed.full then 1 else 4
    let d1 := { d with as_in_alt := alt }
    let d2 :=
      if alt ≠ 0 then
        let fmt := as_in_alt_setting alt
        { d1 with opts := { d1.opts with
            p_ssize := fmt.ssize, p_chmask := fmt.chmask, p_sres := fmt.sres } }
      else d1
    let p_framesize := d2.opts.p_ssize * num_channels d2.opts.p_chmask
    let rate := d2.opts.p_srate * p_framesize
    let p_interval := (1 <<< (bInterval - 1)) * factor
    let p_pktsize := min (rate / p_interval) d2.p_max_psize
    let p_pktsize_residue :=
      if p_pktsize < d2.p_max_psize then rate % p_interval else 0
    let d3 := { d2 with uac2 :=
      { p_interval := p_interval, p_residue := 0, p_pktsize := p_pktsize,
        p_pktsize_residue := p_pktsize_residue, p_framesize := p_framesize } }
    if alt = 0 then (0, { d3 with p_ep_enabled := false })
    else (0, { d3 with p_ep_enabled := true })
  else (-EINVAL, d)

/-! ### Helper lemmas about the recomputed pacing parameters -/

theorem min_lt_resid (X m Y : Nat) (h : min X m = m) :
    (if min X m < m then Y else 0) = 0 := by
  rw [h]; simp

theorem min_ne_resid (X m Y : Nat) (h : min X m ≠ m) :
    (if min X m < m then Y else 0) = Y := by
  have hlt : min X m < m := lt_of_le_of_ne (min_le_right X m) h
  simp [hlt]

/-- Residue bound for a freshly recomputed activation state: starting from the
state `afunc_set_alt` writes (residue 0, increment `R % iv` or 0), the residue
stays below `fs * iv` for any number of ticks. -/
theorem activation_residue_bound (fs R m iv n : Nat) (hiv : 0 < iv) (hfs : 1 ≤ fs) :
    (pacingIterate n
      { p_interval := iv, p_residue := 0,
        p_pktsize := min (R / iv) m,
        p_pktsize_residue := if min (R / iv) m < m then R % iv else 0,
        p_framesize := fs }).p_residue < fs * iv := by
  apply pacingIterate_residue_bound
  case hfs => exact hfs
  case hiv => exact hiv
  case hinc =>
    show (if min (R / iv) m < m then R % iv else 0) < iv
    split
    · exact Nat.mod_lt _ hiv
    · exact hiv
  case hres =>
    show 0 < fs * iv
    exact Nat.mul_pos (Nat.lt_of_lt_of_le Nat.zero_lt_one hfs) hiv

/-! ### Concrete scenario: 44100 Hz, stereo 16-bit (alt 2), full speed -/

/-- Options with both directions configured at 44100 Hz and the format fields
still at their pre-activation values. -/
def opts44100 : Uac2Opts := ⟨0, 0, 0, 44100, 0, 0, 0, 44100⟩

/-- Concrete device after bind on a full-speed link: interface numbers 0/1/2
assigned in bind order, all alts 0, `max_psize` 1023 for both directions
(lines 1596, 1604, 1612). -/
def dev44100 : AudioDev :=
  ⟨0, 0, 1, 0, 2, 0, opts44100, ⟨0, 0, 0, 0, 0⟩, false, false, 1023, 1023, Speed.full⟩

/-- Pacing state created by activating playback alt 2 (stereo, 16-bit-in-2,
frame size 4) at 44100 Hz on a full-speed link: interval 1000 us, packet base
`min(44100*4/1000, 1023) = 176`, residue increment `176400 % 1000 = 400`. -/
def chip44100 : SndUac2Chip := ((afunc_set_alt dev44100 2 2).2).uac2

/-- Running total of the packet lengths emitted by the first `n` pacing ticks
of the 44100 Hz scenario. -/
def pktTotal : Nat → Nat
  | 0 => 0
  | n + 1 => pktTotal n + (pacingTick (pacingIterate n chip44100)).2

theorem chip44100_eq : chip44100 = ⟨1000, 0, 176, 400, 4⟩ := by decide

/-- Closed form of the 44100 Hz run: after `n` ticks the accumulator holds
`400 * (n % 10)` byte-microseconds and nothing else changes. -/
theorem iterate44100_form (n : Nat) :
    pacingIterate n (⟨1000, 0, 176, 400, 4⟩ : SndUac2Chip)
      = ⟨1000, 400 * (n % 10), 176, 400, 4⟩ := by
  induction n with
  | zero => decide
  | succ n ih =>
      rw [pacingIterate, ih]
      unfold pacingTick
      dsimp only
      by_cases h9 : n % 10 = 9
      · have hcond : (4:Nat) ≤ (400 * (n % 10) + 400) / 1000 := by
          rw [h9]
        rw [if_pos hcond]
        have h10 : (n + 1) % 10 = 0 := by omega
        rw [h9, h10]
      · have hr : n % 10 < 10 := Nat.mod_lt _ (by decide)
        have hcond : ¬ (4:Nat) ≤ (400 * (n % 10) + 400) / 1000 := by
          have hlt : 400 * (n % 10) + 400 < 4 * 1000 := by omega
          exact Nat.not_le.mpr ((Nat.div_lt_iff_lt_mul (by decide)).mpr hlt)
        rw [if_neg hcond]
        have h10 : (n + 1) % 10 = n % 10 + 1 := by omega
        rw [h10, Nat.mul_succ]

/-- Packet length of tick `n + 1` in the 44100 Hz run: 180 bytes on every
10th tick, 176 bytes otherwise. -/
theorem tick44100_len (n : Nat) :
    (pacingTick (pacingIterate n chip44100)).2
      = if (n + 1) % 10 = 0 then 180 else 176 := by
  rw [chip44100_eq, iterate44100_form]
  unfold pacingTick
  dsimp only
  by_cases h9 : n % 10 = 9
  · have hcond : (4:Nat) ≤ (400 * (n % 10) + 400) / 1000 := by rw [h9]
    have h10 : (n + 1) % 10 = 0 := by omega
    rw [if_pos hcond, h10]
    rfl
  · have hr : n % 10 < 10 := Nat.mod_lt _ (by decide)
    have hcond : ¬ (4:Nat) ≤ (400 * (n % 10) + 400) / 1000 := by
      have hlt : 400 * (n % 10) + 400 < 4 * 1000 := by omega
      exact Nat.not_le.mpr ((Nat.div_lt_iff_lt_mul (by decide)).mpr hlt)
    have h10 : (n + 1) % 10 ≠ 0 := by omega
    rw [if_neg hcond, if_neg h10]

/-- Closed form of the running byte total of the 44100 Hz run. -/
theorem pktTotal_form (n : Nat) : pktTotal n = 176 * n + 4 * (n / 10) := by
  induction n with
  | zero => rfl
  | succ n ih =>
      rw [pktTotal, ih, tick44100_len]
      by_cases h0 : (n + 1) % 10 = 0
      · rw [if_pos h0]; omega
      · rw [if_neg h0]; omega

/-! ### Claim theorems about the pacing engine and alt-setting machine -/

/-- Claim C2 (counterexample): the claim that `p_residue` stays strictly below
`p_interval` after every tick is false on the code: activating playback alt 2
(stereo 16-bit, frame size 4) at 44100 Hz full speed gives interval 1000 and
residue increment 400, and after 3 ticks from the fresh activation the
accumulator holds 1200, which is not below the 1000-microsecond interval. -/
theorem residue_not_lt_interval_cex :
    ¬ ((pacingIterate 3 ((afunc_set_alt dev44100 dev44100.as_in_intf 2).2).uac2).p_residue <
        ((afunc_set_alt dev44100 dev44100.as_in_intf 2).2).uac2.p_interval) := by
  decide

/-- Claim C2 (amended): after any number of playback pacing ticks from a
freshly activated stream (any playback alt 1..6, any configured rate, any
speed), the residue accumulator `p_residue` is strictly less than
`p_framesize * p_interval` - one sample frame's worth of byte-microseconds -
rather than `p_interval` itself. -/
theorem afunc_set_alt_residue_lt_frame_interval (d : AudioDev) (k n : Nat)
    (h1 : 1 ≤ k) (h6 : k ≤ MAX_AS_IN_ALT)
    (hni : d.as_in_intf ≠ d.ac_intf) (hno : d.as_in_intf ≠ d.as_out_intf) :
    (pacingIterate n ((afunc_set_alt d d.as_in_intf k).2).uac2).p_residue <
      ((afunc_set_alt d d.as_in_intf k).2).uac2.p_framesize *
        ((afunc_set_alt d d.as_in_intf k).2).uac2.p_interval := by
  have hk0 : k ≠ 0 := by omega
  have hcnd : ¬ (d.as_in_intf = d.as_out_intf ∧ k ≤ MAX_AS_OUT_ALT) := by simp [hno]
  have hcnd2 : d.as_in_intf = d.as_in_intf ∧ k ≤ MAX_AS_IN_ALT := ⟨rfl, h6⟩
  have hfs : 1 ≤ (as_in_alt_setting k).ssize * num_channels (as_in_alt_setting k).chmask := by
    have h6n : k ≤ 6 := h6
    interval_cases k <;> decide
  cases hs : d.speed
  case full =>
    simp only [afunc_set_alt, if_neg hni, if_neg hcnd, if_pos hcnd2, if_pos hk0,
      if_neg hk0, h6, ite_true, hs, eq_self_iff_true, and_self, true_and]
    exact activation_residue_bound _ _ _ _ n (by decide) hfs
  case high =>
    simp only [afunc_set_alt, if_neg hni, if_neg hcnd, if_pos hcnd2, if_pos hk0,
      if_neg hk0, h6, ite_true, hs, eq_self_iff_true, and_self, true_and]
    exact activation_residue_bound _ _ _ _ n (by decide) hfs

/-- Witness for the amended C2 theorem at alt 2, 44100 Hz, 3 ticks. -/
theorem afunc_set_alt_residue_lt_frame_interval_witness :
    ((1:Nat) ≤ 2 ∧ (2:Nat) ≤ MAX_AS_IN_ALT ∧
      dev44100.as_in_intf ≠ dev44100.ac_intf ∧
      dev44100.as_in_intf ≠ dev44100.as_out_intf) ∧
    (pacingIterate 3 ((afunc_set_alt dev44100 dev44100.as_in_intf 2).2).uac2).p_residue <
      ((afunc_set_alt dev44100 dev44100.as_in_intf 2).2).uac2.p_framesize *
        ((afunc_set_alt dev44100 dev44100.as_in_intf 2).2).uac2.p_interval :=
  ⟨⟨by decide, by decide, by decide, by decide⟩,
    afunc_set_alt_residue_lt_frame_interval dev44100 2 3
      (by decide) (by decide) (by decide) (by decide)⟩

/-- Claim C3 (counterexample): in the 44100 Hz / frame 4 / 1 ms scenario the
packet base is 176 and the per-tick residue increment is 400 as claimed, but
the 5th tick emits a 176-byte packet, not a 180-byte one: the extra frame is
only added when the accumulator reaches `p_framesize * p_interval = 4000`,
which takes 10 ticks of 400, not 5. -/
theorem fifth_tick_not_180_cex :
    chip44100.p_pktsize = 176 ∧ chip44100.p_pktsize_residue = 400 ∧
    (pacingTick (pacingIterate 4 chip44100)).2 = 176 ∧
    (pacingTick (pacingIterate 4 chip44100)).2 ≠ 180 := by
  decide

/-- Claim C3 (amended): with sampleRate 44100, frameSize 4 and the 1 ms
full-speed servicing interval, the pacing engine produces packet base 176 and
residue increment 400, every 10th tick emits a 180-byte packet while all the
other ticks emit 176 bytes, and the byte total of any 10-tick window is
exactly `44100 * 4 * 10 / 1000 = 1764`, i.e. 176.4 bytes per tick on
average. -/
theorem scenario44100_pacing :
    chip44100.p_pktsize = 176 ∧ chip44100.p_pktsize_residue = 400 ∧
    (∀ n, (pacingTick (pacingIterate n chip44100)).2
        = if (n + 1) % 10 = 0 then 180 else 176) ∧
    (∀ n, pktTotal (n + 10) - pktTotal n = 44100 * 4 * 10 / 1000) :=
  ⟨by decide, by decide, tick44100_len, fun n => by
    rw [pktTotal_form, pktTotal_form]; omega⟩

/-- Claim C4: on every activation of a non-zero playback alt setting, the
pacing parameters are recomputed with integer arithmetic as
`p_pktsize = min(sampleRate * frameSize / interval, max_psize)`, the residue
increment is zero whenever that base already equals the descriptor's maximum
packet size, and otherwise equals `(sampleRate * frameSize) % interval`. -/
theorem afunc_set_alt_pacing_recompute (d : AudioDev) (k : Nat)
    (h1 : 1 ≤ k) (h6 : k ≤ MAX_AS_IN_ALT)
    (hni : d.as_in_intf ≠ d.ac_intf) (hno : d.as_in_intf ≠ d.as_out_intf) :
    ((afunc_set_alt d d.as_in_intf k).2.uac2.p_pktsize =
       min (d.opts.p_srate * (afunc_set_alt d d.as_in_intf k).2.uac2.p_framesize /
            (afunc_set_alt d d.as_in_intf k).2.uac2.p_interval) d.p_max_psize) ∧
    ((afunc_set_alt d d.as_in_intf k).2.uac2.p_pktsize = d.p_max_psize →
       (afunc_set_alt d d.as_in_intf k).2.uac2.p_pktsize_residue = 0) ∧
    ((afunc_set_alt d d.as_in_intf k).2.uac2.p_pktsize ≠ d.p_max_psize →
       (afunc_set_alt d d.as_in_intf k).2.uac2.p_pktsize_residue =
         (d.opts.p_srate * (afunc_set_alt d d.as_in_intf k).2.uac2.p_framesize) %
           (afunc_set_alt d d.as_in_intf k).2.uac2.p_interval) := by
  have hk0 : k ≠ 0 := by omega
  have hcnd : ¬ (d.as_in_intf = d.as_out_intf ∧ k ≤ MAX_AS_OUT_ALT) := by simp [hno]
  have hcnd2 : d.as_in_intf = d.as_in_intf ∧ k ≤ MAX_AS_IN_ALT := ⟨rfl, h6⟩
  simp only [afunc_set_alt, if_neg hni, if_neg hcnd, if_pos hcnd2, if_pos hk0,
    if_neg hk0, h6, ite_true]
  refine ⟨rfl, ?_, ?_⟩
  · intro h
    exact min_lt_resid _ _ _ h
  · intro h
    exact min_ne_resid _ _ _ h

/-- Witness for C4 at alt 2, 44100 Hz full speed. -/
theorem afunc_set_alt_pacing_recompute_witness :
    ((1:Nat) ≤ 2 ∧ (2:Nat) ≤ MAX_AS_IN_ALT ∧
      dev44100.as_in_intf ≠ dev44100.ac_intf ∧
      dev44100.as_in_intf ≠ dev44100.as_out_intf) ∧
    (((afunc_set_alt dev44100 dev44100.as_in_intf 2).2.uac2.p_pktsize =
       min (dev44100.opts.p_srate *
              (afunc_set_alt dev44100 dev44100.as_in_intf 2).2.uac2.p_framesize /
            (afunc_set_alt dev44100 dev44100.as_in_intf 2).2.uac2.p_interval)
         dev44100.p_max_psize) ∧
    ((afunc_set_alt dev44100 dev44100.as_in_intf 2).2.uac2.p_pktsize
        = dev44100.p_max_psize →
       (afunc_set_alt dev44100 dev44100.as_in_intf 2).2.uac2.p_pktsize_residue = 0) ∧
    ((afunc_set_alt dev44100 dev44100.as_in_intf 2).2.uac2.p_pktsize
        ≠ dev44100.p_max_psize →
       (afunc_set_alt dev44100 dev44100.as_in_intf 2).2.uac2.p_pktsize_residue =
         (dev44100.opts.p_srate *
            (afunc_set_alt dev44100 dev44100.as_in_intf 2).2.uac2.p_framesize) %
           (afunc_set_alt dev44100 dev44100.as_in_intf 2).2.uac2.p_interval)) :=
  ⟨⟨by decide, by decide, by decide, by decide⟩,
    afunc_set_alt_pacing_recompute dev44100 2
      (by decide) (by decide) (by decide) (by decide)⟩

/-- Claim C8: on the control interface every non-zero alt returns `-EINVAL`
and alt 0 succeeds with no state change; an interface number that is none of
the three known interfaces, or an alt index beyond the 6-entry alt tables,
returns `-EINVAL` with no state change. -/
theorem afunc_set_alt_error_paths (d : AudioDev) (intf alt : Nat) :
    (alt ≠ 0 → afunc_set_alt d d.ac_intf alt = (-EINVAL, d)) ∧
    (afunc_set_alt d d.ac_intf 0 = (0, d)) ∧
    (intf ≠ d.ac_intf → intf ≠ d.as_out_intf → intf ≠ d.as_in_intf →
      afunc_set_alt d intf alt = (-EINVAL, d)) ∧
    (MAX_AS_OUT_ALT < alt → MAX_AS_IN_ALT < alt →
      afunc_set_alt d intf alt = (-EINVAL, d)) := by
  refine ⟨?_, ?_, ?_, ?_⟩
  · intro h; simp [afunc_set_alt, h]
  · simp [afunc_set_alt]
  · intro h1 h2 h3; simp [afunc_set_alt, h1, h2, h3]
  · intro hout hin
    by_cases hac : intf = d.ac_intf
    · have hz : alt ≠ 0 := by
        simp [MAX_AS_OUT_ALT] at hout; omega
      simp [afunc_set_alt, hac, hz]
    · have ho : ¬ (alt ≤ MAX_AS_OUT_ALT) := by
        simp [MAX_AS_OUT_ALT] at hout ⊢; omega
      have hi : ¬ (alt ≤ MAX_AS_IN_ALT) := by
        simp [MAX_AS_IN_ALT] at hin ⊢; omega
      simp [afunc_set_alt, hac, ho, hi]

/-- Witness for C8 with interface 5 (unknown) and alt 7 (out of range). -/
theorem afunc_set_alt_error_paths_witness :
    ((7:Nat) ≠ 0 ∧ afunc_set_alt dev44100 dev44100.ac_intf 7 = (-EINVAL, dev44100)) ∧
    (afunc_set_alt dev44100 dev44100.ac_intf 0 = (0, dev44100)) ∧
    ((5:Nat) ≠ dev44100.ac_intf ∧ (5:Nat) ≠ dev44100.as_out_intf ∧
      (5:Nat) ≠ dev44100.as_in_intf ∧
      afunc_set_alt dev44100 5 7 = (-EINVAL, dev44100)) ∧
    (MAX_AS_OUT_ALT < 7 ∧ MAX_AS_IN_ALT < 7 ∧
      afunc_set_alt dev44100 2 7 = (-EINVAL, dev44100)) :=
  ⟨⟨by decide, (afunc_set_alt_error_paths dev44100 5 7).1 (by decide)⟩,
    (afunc_set_alt_error_paths dev44100 5 7).2.1,
    ⟨by decide, by decide, by decide,
      (afunc_set_alt_error_paths dev44100 5 7).2.2.1 (by decide) (by decide) (by decide)⟩,
    ⟨by decide, by decide,
      (afunc_set_alt_error_paths dev44100 2 7).2.2.2 (by decide) (by decide)⟩⟩

/-- Claim C9: for every playback alt k in 1..6, the sequence Activate(k),
Deactivate (alt 0), Activate(k) leaves the pacing state (`p_framesize`,
`p_interval`, `p_pktsize`, `p_pktsize_residue`, `p_residue`) equal to the
state produced by a single fresh Activate(k), the configured sample rate
being unchanged in between (`afunc_set_alt` never touches `p_srate`). -/
theorem afunc_set_alt_reactivation (d : AudioDev) (k : Nat)
    (h1 : 1 ≤ k) (h6 : k ≤ MAX_AS_IN_ALT)
    (hni : d.as_in_intf ≠ d.ac_intf) (hno : d.as_in_intf ≠ d.as_out_intf) :
    ((afunc_set_alt ((afunc_set_alt ((afunc_set_alt d d.as_in_intf k).2)
        d.as_in_intf 0).2) d.as_in_intf k).2).uac2 =
      ((afunc_set_alt d d.as_in_intf k).2).uac2 := by
  have hk0 : k ≠ 0 := by omega
  simp [afunc_set_alt, hni, hno, hk0, h6]

/-- Witness for C9 at alt 1 on the concrete 44100 Hz device. -/
theorem afunc_set_alt_reactivation_witness :
    ((1:Nat) ≤ 1 ∧ (1:Nat) ≤ MAX_AS_IN_ALT ∧
      dev44100.as_in_intf ≠ dev44100.ac_intf ∧
      dev44100.as_in_intf ≠ dev44100.as_out_intf) ∧
    ((afunc_set_alt ((afunc_set_alt ((afunc_set_alt dev44100 dev44100.as_in_intf 1).2)
        dev44100.as_in_intf 0).2) dev44100.as_in_intf 1).2).uac2 =
      ((afunc_set_alt dev44100 dev44100.as_in_intf 1).2).uac2 :=
  ⟨⟨by decide, by decide, by decide, by decide⟩,
    afunc_set_alt_reactivation dev44100 1
      (by decide) (by decide) (by decide) (by decide)⟩

/-! ### Completion path (`agdev_iso_complete`, lines 206-302) -/

/-- Direction of the bound ALSA substream (`substream->stream`). -/
inductive Stream where
  | playback
  | capture
deriving Repr, DecidableEq

/-- The fields of `struct usb_request` the completion handler reads and
writes: completion status, `actual` transferred byte count and the queued
`length`. -/
structure UacReq where
  status : Int
  actual : Nat
  length : Nat
deriving Repr, DecidableEq

/-- The fields of `struct uac2_rtd_params` (lines 90-111) the completion
handler touches: the endpoint-enabled flag, ring capacity `dma_bytes`, the
bound substream `ss`, the ring position `hw_ptr` and the ALSA period size. -/
structure RtdParams where
  ep_enabled : Bool
  dma_bytes : Nat
  ss : Option Stream
  hw_ptr : Nat
  period_size : Nat
deriving Repr, DecidableEq

/-- Synchronization-relevant events emitted by the handlers, in program
order: spinlock acquire/release (`spin_lock_irqsave` /
`spin_unlock_irqrestore` on the per-direction `prm->lock`), a store to
`prm->hw_ptr`, and a store to a configured sample rate. -/
inductive Ev where
  | lock
  | unlock
  | writeHwPtr
  | writeRate
deriving Repr, DecidableEq

/-- Scan an event list keeping the current lock depth; every write event must
occur at positive depth. -/
def writesLockedFrom : Nat → List Ev → Bool
  | _, [] => true
  | depth, Ev.lock :: es => writesLockedFrom (depth + 1) es
  | depth, Ev.unlock :: es => writesLockedFrom (depth - 1) es
  | depth, Ev.writeHwPtr :: es => decide (0 < depth) && writesLockedFrom depth es
  | depth, Ev.writeRate :: es => decide (0 < depth) && writesLockedFrom depth es

/-- Every write event of the trace happens while the lock is held. -/
def writesLocked (es : List Ev) : Bool := writesLockedFrom 0 es

/-- Result of one `agdev_iso_complete` invocation: the updated ring state,
the updated pacing state, the request as re-queued, whether
`snd_pcm_period_elapsed` is signalled, and the synchronization event trace. -/
structure IsoResult where
  prm : RtdParams
  uac2 : SndUac2Chip
  req : UacReq
  update_alsa : Bool
  trace : List Ev
deriving Repr, DecidableEq

/-- Lines 206-302, `agdev_iso_complete(ep, req)`.

* Lines 219-221: if the endpoint is no longer enabled or the request
  completed with `-ESHUTDOWN`, return without touching anything (the request
  is dropped, not re-queued).
* Lines 227-229: any other non-zero status is only logged.
* Lines 233-235: with no bound substream, skip the ring update and go
  straight to re-queueing.
* Lines 237-271, under `prm->lock`: in the playback branch run the pacing
  arithmetic (embedded as `pacingTick`) and set `req->length` and
  `req->actual` to the computed packet size; compute the period-boundary
  test `hw_ptr % period_size + req->actual >= period_size`; store
  `hw_ptr = (hw_ptr + req->actual) % dma_bytes`.
* Lines 273-292 copy `req->actual` bytes between `req->buf` and the ring
  with wraparound; the byte contents are outside the modelled state.
* Lines 294-299: re-queue the request and, when a period boundary was
  crossed, notify ALSA - both outside the lock. -/
def agdev_iso_complete (prm : RtdParams) (uac2 : SndUac2Chip) (req : UacReq) :
    IsoResult :=
  if prm.ep_enabled = false ∨ req.status = -ESHUTDOWN then
    { prm := prm, uac2 := uac2, req := req, update_alsa := false, trace := [] }
  else
    match prm.ss with
    | none => { prm := prm, uac2 := uac2, req := req, update_alsa := false, trace := [] }
    | some substream =>
        let r :=
          match substream with
          | Stream.playback =>
              let t := pacingTick uac2
              (t.1, { req with length := t.2, actual := t.2 })
          | Stream.capture => (uac2, req)
        let pending := prm.hw_ptr % prm.period_size + r.2.actual
        let update_alsa := decide (prm.period_size ≤ pending)
        { prm := { prm with hw_ptr := (prm.hw_ptr + r.2.actual) % prm.dma_bytes },
          uac2 := r.1, req := r.2, update_alsa := update_alsa,
          trace := [Ev.lock, Ev.writeHwPtr, Ev.unlock] }

/-- Fold a sequence of completion callbacks over the ring and pacing state. -/
def runCompletions : RtdParams → SndUac2Chip → List UacReq →
    RtdParams × SndUac2Chip
  | prm, uac2, [] => (prm, uac2)
  | prm, uac2, r :: rs =>
      let res := agdev_iso_complete prm uac2 r
      runCompletions res.prm res.uac2 rs

theorem iso_complete_dma_bytes (p : RtdParams) (u : SndUac2Chip) (r : UacReq) :
    (agdev_iso_complete p u r).prm.dma_bytes = p.dma_bytes := by
  unfold agdev_iso_complete
  split
  · rfl
  · cases hss : p.ss with
    | none => rfl
    | some s => cases s <;> rfl

theorem iso_complete_hw_ptr_lt (p : RtdParams) (u : SndUac2Chip) (r : UacReq)
    (hdma : 0 < p.dma_bytes) (hptr : p.hw_ptr < p.dma_bytes) :
    (agdev_iso_complete p u r).prm.hw_ptr < p.dma_bytes := by
  unfold agdev_iso_complete
  split
  · exact hptr
  · cases hss : p.ss with
    | none => exact hptr
    | some s => cases s <;> exact Nat.mod_lt _ hdma

theorem iso_complete_step (p : RtdParams) (u : SndUac2Chip) (r : UacReq)
    (s : Stream) (hen : p.ep_enabled = true) (hst : r.status ≠ -ESHUTDOWN)
    (hss : p.ss = some s) :
    (agdev_iso_complete p u r).prm.hw_ptr
        = (p.hw_ptr + (agdev_iso_complete p u r).req.actual) % p.dma_bytes ∧
    writesLocked (agdev_iso_complete p u r).trace = true := by
  have hguard : ¬ (p.ep_enabled = false ∨ r.status = -ESHUTDOWN) := by
    simp [hen, hst]
  unfold agdev_iso_complete
  rw [if_neg hguard, hss]
  cases s <;> exact ⟨rfl, rfl⟩

/-- Claim C1: for every sequence of completion callbacks on a ring with
`dma_bytes > 0`, the ring position `hw_ptr` stays within `[0, dma_bytes)`
(the capacity itself is never changed by the handler), and each completion on
a stream with a bound substream advances `hw_ptr` by exactly `req->actual`
bytes modulo `dma_bytes`, with the `hw_ptr` store performed inside the
per-direction lock. -/
theorem iso_complete_hw_ptr_invariant (prm : RtdParams) (uac2 : SndUac2Chip)
    (reqs : List UacReq) (hdma : 0 < prm.dma_bytes)
    (hptr : prm.hw_ptr < prm.dma_bytes) :
    ((runCompletions prm uac2 reqs).1.dma_bytes = prm.dma_bytes ∧
     (runCompletions prm uac2 reqs).1.hw_ptr < prm.dma_bytes) ∧
    (∀ (p : RtdParams) (u : SndUac2Chip) (r : UacReq) (s : Stream),
      p.ep_enabled = true → r.status ≠ -ESHUTDOWN → p.ss = some s →
      (agdev_iso_complete p u r).prm.hw_ptr
          = (p.hw_ptr + (agdev_iso_complete p u r).req.actual) % p.dma_bytes ∧
      writesLocked (agdev_iso_complete p u r).trace = true) := by
  constructor
  · induction reqs generalizing prm uac2 with
    | nil => exact ⟨rfl, hptr⟩
    | cons r rs ih =>
        have hd := iso_complete_dma_bytes prm uac2 r
        have hl := iso_complete_hw_ptr_lt prm uac2 r hdma hptr
        have := ih (agdev_iso_complete prm uac2 r).prm
          (agdev_iso_complete prm uac2 r).uac2 (by rw [hd]; exact hdma)
          (by rw [hd]; exact hl)
        rw [runCompletions]
        exact ⟨by rw [this.1, hd], by rw [← hd]; exact this.2⟩
  · intro p u r s hen hst hss
    exact iso_complete_step p u r s hen hst hss

/-- Witness for C1: a 1024-byte capture ring at position 0, one successful
100-byte completion followed by one 2000-byte completion (which wraps). -/
theorem iso_complete_hw_ptr_invariant_witness :
    (0 < (RtdParams.mk true 1024 (some Stream.capture) 0 512).dma_bytes ∧
     (RtdParams.mk true 1024 (some Stream.capture) 0 512).hw_ptr
       < (RtdParams.mk true 1024 (some Stream.capture) 0 512).dma_bytes) ∧
    ((runCompletions (RtdParams.mk true 1024 (some Stream.capture) 0 512)
        (SndUac2Chip.mk 0 0 0 0 0)
        [UacReq.mk 0 100 100, UacReq.mk 0 2000 2000]).1.dma_bytes = 1024 ∧
     (runCompletions (RtdParams.mk true 1024 (some Stream.capture) 0 512)
        (SndUac2Chip.mk 0 0 0 0 0)
        [UacReq.mk 0 100 100, UacReq.mk 0 2000 2000]).1.hw_ptr < 1024) ∧
    ((agdev_iso_complete (RtdParams.mk true 1024 (some Stream.capture) 0 512)
        (SndUac2Chip.mk 0 0 0 0 0) (UacReq.mk 0 100 100)).prm.hw_ptr
      = (0 + (agdev_iso_complete (RtdParams.mk true 1024 (some Stream.capture) 0 512)
          (SndUac2Chip.mk 0 0 0 0 0) (UacReq.mk 0 100 100)).req.actual) % 1024 ∧
     writesLocked (agdev_iso_complete
        (RtdParams.mk true 1024 (some Stream.capture) 0 512)
        (SndUac2Chip.mk 0 0 0 0 0) (UacReq.mk 0 100 100)).trace = true) :=
  ⟨⟨by decide, by decide⟩,
    (iso_complete_hw_ptr_invariant (RtdParams.mk true 1024 (some Stream.capture) 0 512)
      (SndUac2Chip.mk 0 0 0 0 0) [UacReq.mk 0 100 100, UacReq.mk 0 2000 2000]
      (by decide) (by decide)).1,
    (iso_complete_hw_ptr_invariant (RtdParams.mk true 1024 (some Stream.capture) 0 512)
      (SndUac2Chip.mk 0 0 0 0 0) [UacReq.mk 0 100 100, UacReq.mk 0 2000 2000]
      (by decide) (by decide)).2
      (RtdParams.mk true 1024 (some Stream.capture) 0 512)
      (SndUac2Chip.mk 0 0 0 0 0) (UacReq.mk 0 100 100) Stream.capture
      (by decide) (by decide) (by decide)⟩

/-! ### Clock control requests (lines 1918-2108) -/

/-- Little-endian byte encoding of a 16-bit value (`__le16`). -/
def le16 (v : Nat) : List Nat := [v % 256, v / 256 % 256]

/-- Little-endian byte encoding of a 32-bit value (`__le32`). -/
def le32 (v : Nat) : List Nat :=
  [v % 256, v / 256 % 256, v / 65536 % 256, v / 16777216 % 256]

/-- Lines 1459-1468, `DECLARE_CNTRL_RANGE_LAY3(2)`: the packed byte layout of
`struct cntrl_range_lay3_2` as `in_rq_range` leaves it on the stack - the
16-bit `wNumSubRanges`, then the 24 bytes of `dRangeAttrs[2][3]`, which the
code never assigns (they are whatever was on the stack, here the parameter
`dRangeAttrs`), then the trailing `dMIN`, `dMAX`, `dRES` fields that the code
does assign.  Total size 38 bytes. -/
def cntrl_range_lay3_bytes (numSubRanges : Nat) (dRangeAttrs : Fin 24 → Nat)
    (dMIN dMAX dRES : Nat) : List Nat :=
  le16 numSubRanges ++ List.ofFn dRangeAttrs ++ le32 dMIN ++ le32 dMAX ++ le32 dRES

/-- Modelled from the spec (section 6, wire protocol): the RANGE payload is a
16-bit sub-range count followed by the (min, max, resolution) triples,
little-endian 32-bit each; for the sample-frequency control a single
sub-range (rate, rate, 0), truncated to the requested length.  This is the
spec-side layout used to compare the source's payload against the spec's
words. -/
def rangeSpecPayload (rate w_length : Nat) : List Nat :=
  (le16 1 ++ le32 rate ++ le32 rate ++ le32 0).take w_length

/-- Lines 1918-1959, `in_rq_cur(fn, cr)`: GET CUR.  For the sample-frequency
selector the stack variable `struct cntrl_cur_lay3 c` gets `dCUR` assigned
only when the entity id is one of the two clock ids - for any other entity
`c.dCUR` keeps its indeterminate stack value (parameter `uninit`) - and the
function unconditionally returns `min(w_length, sizeof c)` with the first
`value` bytes of `c` copied out.  For the clock-valid selector it returns one
byte 1.  Any other selector returns `-EOPNOTSUPP`. -/
def in_rq_cur (opts : Uac2Opts) (entity_id control_selector w_length : Nat)
    (uninit : Nat) : Int × List Nat :=
  if control_selector = UAC2_CS_CONTROL_SAM_FREQ then
    let cur : Nat :=
      if entity_id = USB_IN_CLK_ID then opts.p_srate
      else if entity_id = USB_OUT_CLK_ID then opts.c_srate
      else uninit
    let value := min w_length 4
    ((value : Int), (le32 cur).take value)
  else if control_selector = UAC2_CS_CONTROL_CLOCK_VALID then
    let value := min w_length 1
    ((value : Int), [1].take value)
  else
    (-EOPNOTSUPP, [])

/-- Lines 1961-2004, `in_rq_range(fn, cr)`: GET RANGE.  For the
sample-frequency selector with a clock entity id, fill `dMIN = dMAX = rate`,
`dRES = 0`, `wNumSubRanges = 1` into the `struct CNTRL_RANGE_LAY3(2)` stack
variable (whose `dRangeAttrs` stays uninitialized) and return
`min(w_length, sizeof r)` bytes of it; an entity id that is neither clock id
returns `-EOPNOTSUPP`, as does any other selector. -/
def in_rq_range (opts : Uac2Opts) (entity_id control_selector w_length : Nat)
    (dRangeAttrs : Fin 24 → Nat) : Int × List Nat :=
  if control_selector = UAC2_CS_CONTROL_SAM_FREQ then
    if entity_id = USB_IN_CLK_ID then
      let bytes := cntrl_range_lay3_bytes 1 dRangeAttrs opts.p_srate opts.p_srate 0
      let value := min w_length 38
      ((value : Int), bytes.take value)
    else if entity_id = USB_OUT_CLK_ID then
      let bytes := cntrl_range_lay3_bytes 1 dRangeAttrs opts.c_srate opts.c_srate 0
      let value := min w_length 38
      ((value : Int), bytes.take value)
    else (-EOPNOTSUPP, [])
  else (-EOPNOTSUPP, [])

/-- Lines 2006-2015, `ac_rq_in(fn, cr)`: dispatch an IN class request on the
control interface by `bRequest`; anything other than CUR or RANGE is
`-EOPNOTSUPP`. -/
def ac_rq_in (opts : Uac2Opts) (bRequest entity_id control_selector w_length : Nat)
    (uninit : Nat) (dRangeAttrs : Fin 24 → Nat) : Int × List Nat :=
  if bRequest = UAC2_CS_CUR then
    in_rq_cur opts entity_id control_selector w_length uninit
  else if bRequest = UAC2_CS_RANGE then
    in_rq_range opts entity_id control_selector w_length dRangeAttrs
  else
    (-EOPNOTSUPP, [])

/-- Lines 2055-2086, `out_rq_cur(fn, cr)`: SET CUR.  For the sample-frequency
selector the handler installs the direction's rate-commit completion
(`set_c_srate_complete` for the capture clock, `set_p_srate_complete` for the
playback clock, none for any other entity) and immediately returns
`w_length`, the expected payload length; any other selector is
`-EOPNOTSUPP`. -/
def out_rq_cur (entity_id control_selector w_length : Nat) : Int × Option Stream :=
  if control_selector = UAC2_CS_CONTROL_SAM_FREQ then
    let cmpl : Option Stream :=
      if entity_id = USB_OUT_CLK_ID then some Stream.capture
      else if entity_id = USB_IN_CLK_ID then some Stream.playback
      else none
    ((w_length : Int), cmpl)
  else
    (-EOPNOTSUPP, none)

/-- Result of a rate-commit completion: the updated options, whether the
unsupported-rate diagnostic (`pr_err`) fired, and the synchronization event
trace of the store. -/
structure SrateResult where
  opts : Uac2Opts
  diag : Bool
  trace : List Ev
deriving Repr, DecidableEq

/-- The scan `for (i = 0; i < CLK_FREQ_ARR_SIZE; i++) if (clk_frequencies[i]
== *buf)` of lines 2024-2029 / 2043-2048, as a boolean: does the table hold
the value? -/
def find_rate : List Nat → Nat → Bool
  | [], _ => false
  | f :: fs, v => if f = v then true else find_rate fs v

/-- Lines 2017-2034, `set_p_srate_complete(ep, req)`: when the delivered
payload matches an entry of `clk_frequencies`, store it into `opts->p_srate`
(the function takes no lock, so the store's trace is a bare write event);
otherwise leave the options untouched and log the unsupported-rate error.
The function returns nothing, so no status reaches the host either way. -/
def set_p_srate_complete (opts : Uac2Opts) (buf : Nat) : SrateResult :=
  if find_rate clk_frequencies buf then
    { opts := { opts with p_srate := buf }, diag := false, trace := [Ev.writeRate] }
  else
    { opts := opts, diag := true, trace := [] }

/-- Lines 2036-2053, `set_c_srate_complete(ep, req)`: capture-direction
counterpart of `set_p_srate_complete`. -/
def set_c_srate_complete (opts : Uac2Opts) (buf : Nat) : SrateResult :=
  if find_rate clk_frequencies buf then
    { opts := { opts with c_srate := buf }, diag := false, trace := [Ev.writeRate] }
  else
    { opts := opts, diag := true, trace := [] }

theorem find_rate_mem (v : Nat) :
    find_rate clk_frequencies v = decide (v ∈ clk_frequencies) := by
  by_cases h1 : (44100:Nat) = v
  · simp [find_rate, clk_frequencies, h1]
  · by_cases h2 : (48000:Nat) = v
    · simp [find_rate, clk_frequencies, h1, h2]
    · simp [find_rate, clk_frequencies, h1, h2, Ne.symm h1, Ne.symm h2]

/-- Claim C5 (code bug): the claim says the GET RANGE response, truncated to
the requested length, is the 16-bit sub-range count 1 immediately followed by
the little-endian triple (rate, rate, 0), and that a non-clock entity id gets
`-EOPNOTSUPP`.  The entity-id part holds, but the payload does not: the
`DECLARE_CNTRL_RANGE_LAY3` struct interposes 24 never-assigned `dRangeAttrs`
bytes between the count and the assigned `dMIN`/`dMAX`/`dRES` fields, so at
the concrete input (playback clock entity, rate 44100, `w_length` 14, stack
garbage all zero) the 14 bytes sent to the host differ from the spec layout -
the host reads indeterminate stack bytes where the triple should be. -/
theorem in_rq_range_layout_bug :
    (in_rq_range opts44100 USB_IN_CLK_ID UAC2_CS_CONTROL_SAM_FREQ 14 (fun _ => 0)).2
      ≠ rangeSpecPayload 44100 14 ∧
    (in_rq_range opts44100 USB_IN_CLK_ID UAC2_CS_CONTROL_SAM_FREQ 14 (fun _ => 0)).1 = 14 ∧
    (in_rq_range opts44100 3 UAC2_CS_CONTROL_SAM_FREQ 14 (fun _ => 0)).1 = -EOPNOTSUPP := by
  decide

/-- Claim C7 (code bug): the claim says GET CUR on the sample-frequency
selector with an entity id that is neither clock entity returns
`-EOPNOTSUPP`.  The code instead falls through the entity checks with
`c.dCUR` never assigned and still returns `min(w_length, 4)` with the
indeterminate stack bytes as payload: at entity id 3 and `w_length` 4 the
request processor returns 4 (success), not `-EOPNOTSUPP`, and ships the
uninitialized value to the host. -/
theorem in_rq_cur_bad_entity_no_error (opts : Uac2Opts) (uninit : Nat) :
    (ac_rq_in opts UAC2_CS_CUR 3 UAC2_CS_CONTROL_SAM_FREQ 4 uninit (fun _ => 0)).1 = 4 ∧
    (ac_rq_in opts UAC2_CS_CUR 3 UAC2_CS_CONTROL_SAM_FREQ 4 uninit (fun _ => 0)).2
      = le32 uninit ∧
    (4:Int) ≠ -EOPNOTSUPP := by
  refine ⟨?_, ?_, by decide⟩ <;>
    simp [ac_rq_in, in_rq_cur, UAC2_CS_CUR, UAC2_CS_RANGE, UAC2_CS_CONTROL_SAM_FREQ,
      UAC2_CS_CONTROL_CLOCK_VALID, USB_IN_CLK_ID, USB_OUT_CLK_ID, le32]

/-- Claim C6 (counterexample): the claim that a valid rate is committed under
the configuration lock is false - `set_p_srate_complete` stores the rate with
no lock held: at payload 48000 the rate is committed but the store's trace
has the write outside any lock region. -/
theorem set_srate_commit_not_locked_cex :
    (set_p_srate_complete opts44100 48000).opts.p_srate = 48000 ∧
    writesLocked (set_p_srate_complete opts44100 48000).trace = false := by
  decide

/-- Claim C6 (amended): every SET CUR on the sample-frequency control
immediately returns the expected payload length `w_length` (whatever the
entity id), installing the playback commit for the playback clock entity and
the capture commit for the capture clock entity; on delivery of payload `v`,
if `v` is in {44100, 48000} the corresponding direction's configured rate
becomes `v` - committed directly in the completion callback without taking
the configuration lock - and otherwise the options are left exactly
unchanged, the unsupported-rate diagnostic fires, and (the completion
returning nothing) no error is surfaced to the host. -/
theorem out_rq_cur_and_srate_commit (opts : Uac2Opts) (entity_id w_length v : Nat) :
    (out_rq_cur entity_id UAC2_CS_CONTROL_SAM_FREQ w_length).1 = (w_length : Int) ∧
    (out_rq_cur USB_IN_CLK_ID UAC2_CS_CONTROL_SAM_FREQ w_length).2
      = some Stream.playback ∧
    (out_rq_cur USB_OUT_CLK_ID UAC2_CS_CONTROL_SAM_FREQ w_length).2
      = some Stream.capture ∧
    (set_p_srate_complete opts v).opts
      = (if v ∈ clk_frequencies then { opts with p_srate := v } else opts) ∧
    (set_p_srate_complete opts v).diag = decide (v ∉ clk_frequencies) ∧
    (set_p_srate_complete opts v).trace
      = (if v ∈ clk_frequencies then [Ev.writeRate] else []) ∧
    (set_c_srate_complete opts v).opts
      = (if v ∈ clk_frequencies then { opts with c_srate := v } else opts) ∧
    (set_c_srate_complete opts v).diag = decide (v ∉ clk_frequencies) ∧
    (set_c_srate_complete opts v).trace
      = (if v ∈ clk_frequencies then [Ev.writeRate] else []) := by
  by_cases hv : v ∈ clk_frequencies <;>
    simp [out_rq_cur, set_p_srate_complete, set_c_srate_complete, find_rate_mem, hv,
      UAC2_CS_CONTROL_SAM_FREQ, USB_IN_CLK_ID, USB_OUT_CLK_ID]

end FUac2
